import Mathlib

/-!
# cmd/ping/ping.go — the command-line front end of go-ping

A shallow embedding of `main` of `cmd/ping/ping.go`.  `main` is a straight-line
program whose behaviour is the sequence of calls it makes (to `fmt.Printf`, to
the `ping` package, to `os/signal` and to `context`), so it is embedded as a
function from the parsed command line to the list of calls it performs, in
program order.  The `ping` package itself is a parameter (`PingLib`).
-/

namespace GoPing

/-! ## Values of the Go standard library that `main` handles -/

/-- A `time.Duration`: a count of nanoseconds. -/
abbrev Duration := Int

/-- The constant `time.Second`. -/
def Second : Duration := 1000000000

/-- A `net.IPAddr`. -/
structure IPAddr where
  IP : List Nat
  Zone : String
deriving DecidableEq, Repr

/-- A `context.Context` as built by `main`. -/
inductive Context where
  | Background
  | WithTimeout (parent : Context) (d : Duration)
deriving DecidableEq, Repr

/-- The relative deadlines a context carries, innermost first. -/
def Context.timeouts : Context → List Duration
  | .Background => []
  | .WithTimeout parent d => d :: parent.timeouts

/-- An `os.Signal`. -/
inductive Signal where
  | Interrupt
  | Kill
deriving DecidableEq, Repr

/-- An operand of `fmt.Printf`, tagged with its Go type.  A `float64` is held as
its bit pattern, a `*net.IPAddr` as an optional `IPAddr` (`none` is `nil`). -/
inductive Arg where
  | int (n : Int)
  | str (s : String)
  | float64 (bits : Nat)
  | duration (d : Duration)
  | ipaddr (a : Option IPAddr)
deriving DecidableEq, Repr

/-! ## The records of package `ping` that the handlers read -/

/-- A `ping.Packet`: the fields the receive callback reads, with their Go types
(`int`, `*net.IPAddr`, `int`, `time.Duration`); `other` stands for whatever
further fields the struct has. -/
structure Packet where
  Nbytes : Int
  IPAddr : Option IPAddr
  Seq : Int
  Rtt : Duration
  other : List Int
deriving DecidableEq, Repr

/-- A `ping.Statistics`: the fields the finish callback reads, with their Go
types (`string`, `int`, `int`, `float64` as its bit pattern, four
`time.Duration`); `other` stands for whatever further fields the struct has. -/
structure Statistics where
  Addr : String
  PacketsSent : Int
  PacketsRecv : Int
  PacketLoss : Nat
  MinRtt : Duration
  AvgRtt : Duration
  MaxRtt : Duration
  StdDevRtt : Duration
  other : List Int
deriving DecidableEq, Repr

/-! ## Calls -/

/-- What a handler body (a callback or the interrupt goroutine) can do. -/
inductive Effect where
  | printf (format : String) (args : List Arg)
  | stop
  | setPrivileged (p : Bool)
  | run (ctx : Context)
  | exit (code : Int)
deriving DecidableEq, Repr

/-- A `ping.PingerOption` value as `main` builds it. -/
inductive PingerOption where
  | RecvFuncOption (f : Packet → List Effect)
  | FinishFuncOption (f : Statistics → List Effect)
  | CountOption (c : Int)
  | IntervalOption (i : Duration)

/-- A call made by `main`, in the order of the source. -/
inductive Call where
  | printf (format : String) (args : List Arg)
  | newPinger (host : String) (options : List PingerOption)
  | makeChan (capacity : Nat)
  | signalNotify (sigs : List Signal)
  | goHandler (body : List Signal → List Effect)
  | withTimeout (parent : Context) (d : Duration)
  | deferCancel
  | setPrivileged (p : Bool)
  | addr
  | ipAddr
  | run (ctx : Context)
  | cancel

/-- Package `ping` as seen from `main`: construction may fail with an error
(whose `Error()` text is the string), and a constructed pinger answers `Addr()`
and `IPAddr()`; `SetPrivileged` updates the pinger. -/
structure PingLib where
  Pinger : Type
  NewPinger : String → List PingerOption → Except String Pinger
  SetPrivileged : Pinger → Bool → Pinger
  Addr : Pinger → String
  IPAddr : Pinger → Option IPAddr

/-! ## The program -/

/-- The package-level variable `usage` (lines 14-35). -/
def usage : String :=
"
Usage:

    ping [-c count] [-i interval] [-t timeout] [--privileged] host

Examples:

    # ping google continuously
    ping www.google.com

    # ping google 5 times
    ping -c 5 www.google.com

    # ping google 5 times at 500ms intervals
    ping -c 5 -i 500ms www.google.com

    # ping google for 10 seconds
    ping -t 10s www.google.com

    # Send a privileged raw ICMP ping
    sudo ping --privileged www.google.com
"

/-- The command line after `flag.Parse`: for each flag the value given on the
command line, if any, and the positional arguments. -/
structure CmdLine where
  t : Option Duration
  i : Option Duration
  c : Option Int
  privileged : Option Bool
  args : List String

/-- A flag variable after `flag.Parse`: the value given, else the default it was
declared with (`flag.Duration`, `flag.Int`, `flag.Bool`). -/
def flagValue {α : Type} (given : Option α) (dflt : α) : α :=
  match given with
  | some v => v
  | none => dflt

/-- The function installed as `flag.Usage` (lines 42-44). -/
def flagUsage : List Call := [Call.printf usage []]

/-- The receive callback (lines 55-58). -/
def onRecv (pkt : Packet) : List Effect :=
  [Effect.printf "%d bytes from %s: icmp_seq=%d time=%v\n"
    [Arg.int pkt.Nbytes, Arg.ipaddr pkt.IPAddr, Arg.int pkt.Seq, Arg.duration pkt.Rtt]]

/-- The finish callback (lines 59-65). -/
def onFinish (stats : Statistics) : List Effect :=
  [Effect.printf "\n--- %s ping statistics ---\n" [Arg.str stats.Addr],
   Effect.printf "%d packets transmitted, %d packets received, %v%% packet loss\n"
    [Arg.int stats.PacketsSent, Arg.int stats.PacketsRecv, Arg.float64 stats.PacketLoss],
   Effect.printf "round-trip min/avg/max/stddev = %v/%v/%v/%v\n"
    [Arg.duration stats.MinRtt, Arg.duration stats.AvgRtt, Arg.duration stats.MaxRtt,
     Arg.duration stats.StdDevRtt]]

/-- The body of the interrupt goroutine (lines 79-83): `for range c` over the
signals delivered on the channel, calling `pinger.Stop()` for each. -/
def interruptHandler : List Signal → List Effect
  | [] => []
  | _ :: rest => Effect.stop :: interruptHandler rest

/-- The option slice built at lines 54-68. -/
def buildOptions (count : Int) (interval : Duration) : List PingerOption :=
  [PingerOption.RecvFuncOption onRecv,
   PingerOption.FinishFuncOption onFinish,
   PingerOption.CountOption count,
   PingerOption.IntervalOption interval]

/-- The function `main` (lines 37-92), as the list of calls it makes. -/
def main (lib : PingLib) (cl : CmdLine) : List Call :=
  let timeout := flagValue cl.t (Second * 100000)
  let interval := flagValue cl.i Second
  let count := flagValue cl.c (-1)
  let privileged := flagValue cl.privileged false
  if cl.args.length = 0 then
    flagUsage
  else
    let host := cl.args.getD 0 ""
    let options := buildOptions count interval
    match lib.NewPinger host options with
    | Except.error err =>
      [Call.newPinger host options, Call.printf "ERROR: %s\n" [Arg.str err]]
    | Except.ok pinger =>
      let ctx := Context.WithTimeout Context.Background timeout
      let pinger1 := lib.SetPrivileged pinger privileged
      [Call.newPinger host options,
       Call.makeChan 1,
       Call.signalNotify [Signal.Interrupt],
       Call.goHandler interruptHandler,
       Call.withTimeout Context.Background timeout,
       Call.deferCancel,
       Call.setPrivileged privileged,
       Call.addr,
       Call.ipAddr,
       Call.printf "PING %s (%s):\n" [Arg.str (lib.Addr pinger1), Arg.ipaddr (lib.IPAddr pinger1)],
       Call.run ctx,
       Call.cancel]

/-! ## What the calls print -/

/-- The renderings of the standard library that `fmt` delegates to: `%v` of a
`float64`, `time.Duration.String` and `(*net.IPAddr).String`. -/
structure Formatter where
  float64V : Nat → String
  durationString : Duration → String
  ipAddrString : Option IPAddr → String

/-- One operand under one verb, for the verbs and operand types `main` uses;
`none` for a combination outside that fragment. -/
def formatVerb (F : Formatter) (verb : Char) (a : Arg) : Option String :=
  match a with
  | Arg.int n => if verb = 'd' ∨ verb = 'v' then some (toString n) else none
  | Arg.str s => if verb = 's' ∨ verb = 'v' then some s else none
  | Arg.float64 b => if verb = 'v' then some (F.float64V b) else none
  | Arg.duration d =>
    if verb = 's' ∨ verb = 'v' then some (F.durationString d)
    else if verb = 'd' then some (toString d) else none
  | Arg.ipaddr a => if verb = 's' ∨ verb = 'v' then some (F.ipAddrString a) else none

/-- The text `fmt.Sprintf` produces, on the characters of the format: ordinary
characters are copied, `%%` is one `%`, `%d`, `%s`, `%v` consume one operand.
`none` outside the modelled fragment (another verb, a missing or extra
operand). -/
def sprintfChars (F : Formatter) : List Char → List Arg → Option (List Char)
  | [], [] => some []
  | [], _ :: _ => none
  | [c], args =>
    if c = '%' then none else (sprintfChars F [] args).map (fun out => c :: out)
  | c :: v :: rest, args =>
    if c = '%' then
      if v = '%' then (sprintfChars F rest args).map (fun out => '%' :: out)
      else
        match args with
        | [] => none
        | a :: args1 =>
          match formatVerb F v a with
          | none => none
          | some s => (sprintfChars F rest args1).map (fun out => s.data ++ out)
    else (sprintfChars F (v :: rest) args).map (fun out => c :: out)

/-- The model of `fmt.Sprintf` on strings. -/
def sprintf (F : Formatter) (format : String) (args : List Arg) : Option String :=
  (sprintfChars F format.data args).map String.mk

/-- Concatenation of the outputs of successive `Printf` calls. -/
def concatOutputs : List (Option String) → Option String
  | [] => some ""
  | none :: _ => none
  | some s :: rest => (concatOutputs rest).map (fun t => s ++ t)

/-- What one call of `main` writes to standard output. -/
def Call.output (F : Formatter) : Call → Option String
  | Call.printf format args => sprintf F format args
  | _ => some ""

/-- What one effect of a handler writes to standard output. -/
def Effect.output (F : Formatter) : Effect → Option String
  | Effect.printf format args => sprintf F format args
  | _ => some ""

/-- Standard output of a run of `main`. -/
def stdout (F : Formatter) (trace : List Call) : Option String :=
  concatOutputs (trace.map (Call.output F))

/-- Standard output of a handler invocation. -/
def handlerStdout (F : Formatter) (effects : List Effect) : Option String :=
  concatOutputs (effects.map (Effect.output F))

/-! ## Observations on a trace -/

/-- Which operation a call is, without its arguments. -/
inductive Kind where
  | printf | newPinger | makeChan | signalNotify | goHandler | withTimeout
  | deferCancel | setPrivileged | addr | ipAddr | run | cancel
deriving DecidableEq, Repr

/-- The operation of a call. -/
def Call.kind : Call → Kind
  | Call.printf _ _ => Kind.printf
  | Call.newPinger _ _ => Kind.newPinger
  | Call.makeChan _ => Kind.makeChan
  | Call.signalNotify _ => Kind.signalNotify
  | Call.goHandler _ => Kind.goHandler
  | Call.withTimeout _ _ => Kind.withTimeout
  | Call.deferCancel => Kind.deferCancel
  | Call.setPrivileged _ => Kind.setPrivileged
  | Call.addr => Kind.addr
  | Call.ipAddr => Kind.ipAddr
  | Call.run _ => Kind.run
  | Call.cancel => Kind.cancel

/-- The operations of a trace, in order. -/
def kinds (trace : List Call) : List Kind := trace.map Call.kind

/-- The contexts passed to `Run`, in order. -/
def runContexts : List Call → List Context
  | [] => []
  | Call.run ctx :: rest => ctx :: runContexts rest
  | _ :: rest => runContexts rest

/-- The arguments of the `SetPrivileged` calls, in order. -/
def privilegedSet : List Call → List Bool
  | [] => []
  | Call.setPrivileged p :: rest => p :: privilegedSet rest
  | _ :: rest => privilegedSet rest

/-- The signal lists passed to `signal.Notify`, in order. -/
def notifiedSignals : List Call → List (List Signal)
  | [] => []
  | Call.signalNotify sigs :: rest => sigs :: notifiedSignals rest
  | _ :: rest => notifiedSignals rest

/-- The capacities of the channels made, in order. -/
def channelCapacities : List Call → List Nat
  | [] => []
  | Call.makeChan capacity :: rest => capacity :: channelCapacities rest
  | _ :: rest => channelCapacities rest

/-- The bodies of the goroutines started, in order. -/
def handlersStarted : List Call → List (List Signal → List Effect)
  | [] => []
  | Call.goHandler body :: rest => body :: handlersStarted rest
  | _ :: rest => handlersStarted rest

/-- The hosts passed to `NewPinger`, in order. -/
def hostsPassed : List Call → List String
  | [] => []
  | Call.newPinger host _ :: rest => host :: hostsPassed rest
  | _ :: rest => hostsPassed rest

/-- The options passed to `NewPinger`, all calls together. -/
def optionsPassed : List Call → List PingerOption
  | [] => []
  | Call.newPinger _ options :: rest => options ++ optionsPassed rest
  | _ :: rest => optionsPassed rest

/-- The arguments of the `CountOption`s in an option list. -/
def countOptions : List PingerOption → List Int
  | [] => []
  | PingerOption.CountOption c :: rest => c :: countOptions rest
  | _ :: rest => countOptions rest

/-- The arguments of the `IntervalOption`s in an option list. -/
def intervalOptions : List PingerOption → List Duration
  | [] => []
  | PingerOption.IntervalOption i :: rest => i :: intervalOptions rest
  | _ :: rest => intervalOptions rest

/-- The configuration values of a run named by the specification. -/
inductive ConfigKey where
  | count | interval | timeout | privileged | onRecv | onFinish
deriving DecidableEq, Repr

/-- The configuration value an option supplies. -/
def PingerOption.key : PingerOption → ConfigKey
  | PingerOption.RecvFuncOption _ => ConfigKey.onRecv
  | PingerOption.FinishFuncOption _ => ConfigKey.onFinish
  | PingerOption.CountOption _ => ConfigKey.count
  | PingerOption.IntervalOption _ => ConfigKey.interval

/-- The configuration value a call changes on an existing pinger, if any. -/
def Call.mutates : Call → Option ConfigKey
  | Call.setPrivileged _ => some ConfigKey.privileged
  | _ => none

/-- The calls made after `NewPinger` and before `Run`. -/
def betweenConstructionAndRun (trace : List Call) : List Call :=
  ((trace.dropWhile (fun c => decide (c.kind ≠ Kind.newPinger))).drop 1).takeWhile
    (fun c => decide (c.kind ≠ Kind.run))

/-- A trace in which the configuration is fixed at construction: every configuration value is supplied by
a construction option, and nothing between construction and `Run` changes a
configuration value of the pinger. -/
def ConfigFixedAtConstruction (trace : List Call) : Prop :=
  (∀ k : ConfigKey, k ∈ (optionsPassed trace).map PingerOption.key) ∧
  (betweenConstructionAndRun trace).filterMap Call.mutates = []

/-- A context has a deadline when a timeout was attached on the way from the
background context. -/
def Context.hasDeadline (ctx : Context) : Bool := !ctx.timeouts.isEmpty

/-- Whether an effect is only a write to standard output. -/
def Effect.isPrintf : Effect → Bool
  | Effect.printf _ _ => true
  | _ => false

/-! ## The renderings of the Go standard library -/

/-- The function `fmtInt` of package `time`, also `strconv.Itoa` on a natural
number: the decimal digits. -/
def fmtInt (v : Nat) : List Char := Nat.toDigits 10 v

/-- The loop of `fmtFrac` of package `time`: the last `prec` decimal digits of
`v`, trailing zeros left out. -/
def fmtFracLoop : Nat → Nat → Bool → List Char → List Char × Bool × Nat
  | 0, v, print, acc => (acc, print, v)
  | prec + 1, v, print, acc =>
    let digit := v % 10
    let print1 := print || digit != 0
    fmtFracLoop prec (v / 10) print1 (if print1 then Nat.digitChar digit :: acc else acc)

/-- The function `fmtFrac` of package `time`: the fraction of `v / 10^prec`
with its point (nothing when the fraction is zero), and `v / 10^prec`. -/
def fmtFrac (v prec : Nat) : List Char × Nat :=
  match fmtFracLoop prec v false [] with
  | (acc, print, v1) => (if print then '.' :: acc else acc, v1)

/-- The method `time.Duration.String`. -/
def durationString (d : Duration) : String :=
  let u := d.natAbs
  let body : List Char :=
    if u < 1000000000 then
      if u = 0 then ['0', 's']
      else if u < 1000 then fmtInt u ++ ['n', 's']
      else if u < 1000000 then
        match fmtFrac u 3 with
        | (frac, v) => fmtInt v ++ frac ++ ['µ', 's']
      else
        match fmtFrac u 6 with
        | (frac, v) => fmtInt v ++ frac ++ ['m', 's']
    else
      match fmtFrac u 9 with
      | (frac, v) =>
        let secs := fmtInt (v % 60) ++ frac ++ ['s']
        let mins := v / 60
        if mins > 0 then
          let hours := mins / 60
          (if hours > 0 then fmtInt hours ++ ['h'] else []) ++ fmtInt (mins % 60) ++ ['m'] ++ secs
        else secs
  String.mk (if d < 0 then '-' :: body else body)

/-- Two lowercase hexadecimal digits per byte (`hexString` of package `net`). -/
def hexString : List Nat → List Char
  | [] => []
  | b :: rest => Nat.digitChar (b / 16 % 16) :: Nat.digitChar (b % 16) :: hexString rest

/-- The method `net.IP.To4`: the four bytes of an IPv4 address, also when it is
written as an IPv4-mapped IPv6 address. -/
def To4 (ip : List Nat) : Option (List Nat) :=
  if ip.length = 4 then some ip
  else if ip.length = 16 ∧ ip.take 10 = List.replicate 10 0 ∧ (ip.drop 10).take 2 = [255, 255] then
    some (ip.drop 12)
  else none

/-- Dotted decimal notation of the bytes of an IPv4 address. -/
def dotted : List Nat → List Char
  | [] => []
  | [b] => fmtInt b
  | b :: rest => fmtInt b ++ '.' :: dotted rest

/-- The eight 16-bit groups of a 16-byte address. -/
def groups16 : List Nat → List Nat
  | hi :: lo :: rest => (hi * 256 + lo) :: groups16 rest
  | _ => []

/-- Length of the run of zero groups at the head of a list. -/
def zeroRun : List Nat → Nat
  | [] => 0
  | g :: rest => if g = 0 then zeroRun rest + 1 else 0

/-- The first longest run of at least two zero groups, as start and end index,
scanning from index `i`; `best` is the run found so far (255, 255 for none). -/
def longestZeroRun : List Nat → Nat → Nat × Nat → Nat × Nat
  | [], _, best => best
  | g :: rest, i, best =>
    let l := zeroRun (g :: rest)
    longestZeroRun rest (i + 1) (if l ≥ 2 ∧ l > best.2 - best.1 then (i, i + l) else best)

/-- The output loop of the IPv6 text form: groups in lowercase hexadecimal
separated by colons, the chosen zero run written as `::`. -/
def ip6Loop (g : List Nat) (zeroStart zeroEnd : Nat) : Nat → Nat → List Char
  | 0, _ => []
  | fuel + 1, i =>
    if i ≥ 8 then []
    else if i = zeroStart then
      if zeroEnd ≥ 8 then [':', ':']
      else [':', ':'] ++ Nat.toDigits 16 (g.getD zeroEnd 0) ++ ip6Loop g zeroStart zeroEnd fuel (zeroEnd + 1)
    else
      (if i > 0 then [':'] else []) ++ Nat.toDigits 16 (g.getD i 0)
        ++ ip6Loop g zeroStart zeroEnd fuel (i + 1)

/-- The method `net.IP.String`. -/
def ipString (ip : List Nat) : List Char :=
  if ip.length = 0 then "<nil>".data
  else if ip.length ≠ 4 ∧ ip.length ≠ 16 then '?' :: hexString ip
  else
    match To4 ip with
    | some p4 => dotted p4
    | none =>
      let g := groups16 ip
      match longestZeroRun g 0 (255, 255) with
      | (zeroStart, zeroEnd) => ip6Loop g zeroStart zeroEnd 9 0

/-- The method `(*net.IPAddr).String`. -/
def ipAddrString (a : Option IPAddr) : String :=
  match a with
  | none => "<nil>"
  | some addr =>
    let ip := if addr.IP.length = 0 then [] else ipString addr.IP
    String.mk (if addr.Zone ≠ "" then ip ++ '%' :: addr.Zone.data else ip)

/-! ### `%v` of a float64 -/

/-- Number of decimal digits of a positive natural number. -/
def numDigits (n : Nat) : Nat := (Nat.toDigits 10 n).length

/-- For a positive value `num / den` below one, the least `j ≥ 1` with
`num * 10^j ≥ den`, searched with fuel. -/
def leadingZeros (num den : Nat) : Nat → Nat → Nat
  | 0, j => j
  | fuel + 1, j => if num * 10 ^ j ≥ den then j else leadingZeros num den fuel (j + 1)

/-- The shortest decimal that identifies a float64 (`roundShortest` of package
`strconv`): the digits as a number and the position of the decimal point
(`value = 0.digits * 10^dp`).  The value is `vn / ud`, the midpoints to the
neighbouring floats are `ln / ud` and `un / ud`, and `10^(k-1) ≤ value < 10^k`.
The number of digits `n` is searched upwards; with `n` digits the candidates
are the value rounded down and rounded up, a candidate is accepted when it lies
between the midpoints (which count when `inclusive`), and of two
accepted candidates the nearer wins, the even one on a tie. -/
def shortestLoop (vn ln un ud : Nat) (inclusive : Bool) (k : Int) : Nat → Nat → Nat × Int
  | 0, n => (vn / ud, k - n + numDigits (vn / ud))
  | fuel + 1, n =>
    let s : Int := k - n
    let a := 10 ^ s.toNat
    let b := 10 ^ (-s).toNat
    let lo := vn * b / (ud * a)
    let hi := lo + 1
    let okLow := fun c : Nat => if inclusive then c * a * ud ≥ ln * b else c * a * ud > ln * b
    let okHigh := fun c : Nat => if inclusive then c * a * ud ≤ un * b else c * a * ud < un * b
    let okdown := okLow lo && okHigh lo
    let okup := okLow hi && okHigh hi
    let distLo := vn * b - lo * a * ud
    let distHi := hi * a * ud - vn * b
    if okdown && okup then
      if distLo < distHi ∨ (distLo = distHi ∧ lo % 2 = 0) then (lo, s + numDigits lo)
      else (hi, s + numDigits hi)
    else if okdown then (lo, s + numDigits lo)
    else if okup then (hi, s + numDigits hi)
    else shortestLoop vn ln un ud inclusive k fuel (n + 1)

/-- Drop the trailing zeros of a digit list. -/
def stripZeros (ds : List Char) : List Char :=
  (ds.reverse.dropWhile (fun c => c == '0')).reverse

/-- The shortest digits and decimal point of the positive float64 with biased
exponent `bexp` and fraction `frac`: mantissa `m` and binary exponent `e` with
`value = m * 2^e`, everything then counted in units of `2^(e-2)`, written
`un / ud`; below a power of two the gap to the neighbour is half as wide. -/
def shortestDigits (bexp frac : Nat) : List Char × Int :=
  let m := if bexp = 0 then frac else 2 ^ 52 + frac
  let e : Int := if bexp = 0 then -1074 else (bexp : Int) - 1075
  let narrow := decide (frac = 0 ∧ bexp > 1)
  let un := 2 ^ (e - 2).toNat
  let ud := 2 ^ (2 - e).toNat
  let vn := 4 * m * un
  let upper := (4 * m + 2) * un
  let lower := (if narrow then 4 * m - 1 else 4 * m - 2) * un
  let k : Int :=
    if vn ≥ ud then (numDigits (vn / ud) : Int)
    else 1 - (leadingZeros vn ud 400 1 : Int)
  match shortestLoop vn lower upper ud (m % 2 == 0) k 17 1 with
  | (c, dp) => (stripZeros (Nat.toDigits 10 c), dp)

/-- The `%e` form of `strconv` for shortest digits. -/
def fmtE (ds : List Char) (dp : Int) : List Char :=
  let exp := dp - 1
  let mant := match ds with
    | [] => ['0']
    | [d] => [d]
    | d :: rest => d :: '.' :: rest
  let ex := Nat.toDigits 10 exp.natAbs
  mant ++ 'e' :: (if exp < 0 then '-' else '+') :: (if ex.length < 2 then '0' :: ex else ex)

/-- The `%f` form of `strconv` for shortest digits. -/
def fmtF (ds : List Char) (dp : Int) : List Char :=
  let nd := ds.length
  let intPart := if dp > 0 then ds.take dp.toNat ++ List.replicate (dp.toNat - nd) '0' else ['0']
  let prec := ((nd : Int) - dp).toNat
  let fracPart :=
    if prec > 0 then
      '.' :: (List.replicate (-dp).toNat '0' ++ ds.drop dp.toNat)
    else []
  intPart ++ fracPart

/-- The verb `%v` on a float64 given by its bits (`%g` with the shortest
precision). -/
def float64V (bits : Nat) : String :=
  let neg := bits / 2 ^ 63 % 2 = 1
  let bexp := bits / 2 ^ 52 % 2048
  let frac := bits % 2 ^ 52
  if bexp = 2047 then
    if frac ≠ 0 then "NaN" else if neg then "-Inf" else "+Inf"
  else
    let body :=
      if bexp = 0 ∧ frac = 0 then ['0']
      else
        match shortestDigits bexp frac with
        | (ds, dp) =>
          let exp := dp - 1
          if exp < -4 ∨ exp ≥ 6 then fmtE ds dp else fmtF ds dp
    String.mk (if neg then '-' :: body else body)

/-- The formatter of the Go standard library. -/
def goFormatter : Formatter where
  float64V := float64V
  durationString := durationString
  ipAddrString := ipAddrString

/-! ## Sample inputs -/

/-- A library whose construction always succeeds. -/
def okLib : PingLib where
  Pinger := String × Bool
  NewPinger := fun host _ => Except.ok (host, false)
  SetPrivileged := fun p b => (p.1, b)
  Addr := fun p => p.1
  IPAddr := fun _ => some { IP := [93, 184, 216, 34], Zone := "" }

/-- A library whose construction always fails, with a `%` in the message. -/
def failLib : PingLib where
  Pinger := Unit
  NewPinger := fun host _ => Except.error ("lookup " ++ host ++ ": 100% loss")
  SetPrivileged := fun p _ => p
  Addr := fun _ => ""
  IPAddr := fun _ => none

/-- The command line `ping www.google.com`. -/
def hostOnly : CmdLine where
  t := none
  i := none
  c := none
  privileged := none
  args := ["www.google.com"]

/-- The command line `ping -c 5 -i 500ms -t 10s --privileged example.org extra`. -/
def allFlags : CmdLine where
  t := some (10 * Second)
  i := some 500000000
  c := some 5
  privileged := some true
  args := ["example.org", "extra"]

/-- The command line `ping -c 5`, without a host. -/
def noHost : CmdLine where
  t := none
  i := none
  c := some 5
  privileged := none
  args := []

/-! ## Auxiliary facts -/

/-- A format without `%` and without operands is printed as it is. -/
theorem sprintfChars_plain (F : Formatter) (cs : List Char) (h : '%' ∉ cs) :
    sprintfChars F cs [] = some cs := by
  induction cs with
  | nil => simp [sprintfChars]
  | cons c rest ih =>
    have hc : c ≠ '%' := fun e => h (by simp [e])
    have hr : '%' ∉ rest := fun e => h (by simp [e])
    cases rest with
    | nil => simp [sprintfChars, hc]
    | cons v rest1 => simp [sprintfChars, hc, ih hr]

/-- The usage text holds no `%`. -/
theorem usage_no_percent : '%' ∉ usage.data := by decide

/-- The trace of `main` without positional arguments. -/
theorem main_of_no_args (lib : PingLib) (cl : CmdLine) (hargs : cl.args = []) :
    main lib cl = [Call.printf usage []] := by
  simp [main, hargs, flagUsage]

/-- The trace of `main` when construction fails. -/
theorem main_of_error (lib : PingLib) (cl : CmdLine) (host : String) (rest : List String)
    (err : String) (hargs : cl.args = host :: rest)
    (herr : lib.NewPinger host (buildOptions (flagValue cl.c (-1)) (flagValue cl.i Second))
      = Except.error err) :
    main lib cl =
      [Call.newPinger host (buildOptions (flagValue cl.c (-1)) (flagValue cl.i Second)),
       Call.printf "ERROR: %s\n" [Arg.str err]] := by
  simp [main, hargs, herr]

/-- The trace of `main` when construction succeeds. -/
theorem main_of_ok (lib : PingLib) (cl : CmdLine) (host : String) (rest : List String)
    (pinger : lib.Pinger) (hargs : cl.args = host :: rest)
    (hok : lib.NewPinger host (buildOptions (flagValue cl.c (-1)) (flagValue cl.i Second))
      = Except.ok pinger) :
    main lib cl =
      [Call.newPinger host (buildOptions (flagValue cl.c (-1)) (flagValue cl.i Second)),
       Call.makeChan 1,
       Call.signalNotify [Signal.Interrupt],
       Call.goHandler interruptHandler,
       Call.withTimeout Context.Background (flagValue cl.t (Second * 100000)),
       Call.deferCancel,
       Call.setPrivileged (flagValue cl.privileged false),
       Call.addr,
       Call.ipAddr,
       Call.printf "PING %s (%s):\n"
         [Arg.str (lib.Addr (lib.SetPrivileged pinger (flagValue cl.privileged false))),
          Arg.ipaddr (lib.IPAddr (lib.SetPrivileged pinger (flagValue cl.privileged false)))],
       Call.run (Context.WithTimeout Context.Background (flagValue cl.t (Second * 100000))),
       Call.cancel] := by
  simp [main, hargs, hok]

/-- The output of a single print. -/
theorem concatOutputs_single (s : String) : concatOutputs [some s] = some s := by
  simp [concatOutputs]

/-- The interrupt goroutine emits one `Stop` per signal and nothing else. -/
theorem interruptHandler_eq (sigs : List Signal) :
    interruptHandler sigs = List.replicate sigs.length Effect.stop := by
  induction sigs with
  | nil => rfl
  | cons s rest ih => simp [interruptHandler, ih, List.replicate_succ]

/-! ## The claims -/

/-- C1: when a host is given and `ping.NewPinger` returns an error, `main`
prints exactly `ERROR: ` followed by the error text as it is (whatever
characters it holds, `%` included) and a newline; the only calls it makes are
the construction attempt and that one `Printf`, so the interrupt handler is not
registered and neither `SetPrivileged` nor `Run` is called. -/
theorem main_construction_error (F : Formatter) (lib : PingLib) (cl : CmdLine)
    (host : String) (rest : List String) (err : String)
    (hargs : cl.args = host :: rest)
    (herr : lib.NewPinger host (buildOptions (flagValue cl.c (-1)) (flagValue cl.i Second))
      = Except.error err) :
    stdout F (main lib cl) = some ("ERROR: " ++ err ++ "\n") ∧
    kinds (main lib cl) = [Kind.newPinger, Kind.printf] ∧
    Kind.signalNotify ∉ kinds (main lib cl) ∧
    Kind.goHandler ∉ kinds (main lib cl) ∧
    Kind.setPrivileged ∉ kinds (main lib cl) ∧
    Kind.run ∉ kinds (main lib cl) := by
  rw [main_of_error lib cl host rest err hargs herr]
  refine ⟨?_, ?_, ?_, ?_, ?_, ?_⟩
  · simp [stdout, Call.output, concatOutputs, sprintf, sprintfChars, formatVerb]
    rfl
  all_goals simp [kinds, Call.kind]

/-- C1, at `ping www.google.com` with a library whose construction fails with a
message holding a `%`. -/
theorem main_construction_error_witness :
    hostOnly.args = ["www.google.com"] ∧
    failLib.NewPinger "www.google.com" (buildOptions (-1) Second)
      = Except.error "lookup www.google.com: 100% loss" ∧
    stdout goFormatter (main failLib hostOnly)
        = some "ERROR: lookup www.google.com: 100% loss\n" ∧
    kinds (main failLib hostOnly) = [Kind.newPinger, Kind.printf] :=
  have h := main_construction_error goFormatter failLib hostOnly "www.google.com" []
    "lookup www.google.com: 100% loss" rfl rfl
  ⟨rfl, rfl, h.1, h.2.1⟩

/-- C2 fails at `ping -c 5 -i 500ms -t 10s --privileged example.org extra`: the
options hold no timeout and no privileged setting, and `SetPrivileged` is called
between construction and `Run`. -/
theorem config_not_fixed_at_construction :
    ¬ ConfigFixedAtConstruction (main okLib allFlags) ∧
    ConfigKey.timeout ∉ (optionsPassed (main okLib allFlags)).map PingerOption.key ∧
    ConfigKey.privileged ∉ (optionsPassed (main okLib allFlags)).map PingerOption.key ∧
    (betweenConstructionAndRun (main okLib allFlags)).filterMap Call.mutates
      = [ConfigKey.privileged] := by
  have hm : (betweenConstructionAndRun (main okLib allFlags)).filterMap Call.mutates
      = [ConfigKey.privileged] := by decide
  refine ⟨?_, by decide, by decide, hm⟩
  intro h
  exact absurd (hm.symm.trans h.2) (by decide)

/-- C2 as amended: when a host is given and construction succeeds, the options
passed to `NewPinger` are exactly the receive callback, the finish callback, the
count and the interval; the privileged setting is applied after construction by
one `SetPrivileged` call with the flag value, which is the only configuration
change between construction and `Run`; the timeout is the deadline of the
context given to `Run`. -/
theorem main_config_supply (lib : PingLib) (cl : CmdLine)
    (host : String) (rest : List String) (pinger : lib.Pinger)
    (hargs : cl.args = host :: rest)
    (hok : lib.NewPinger host (buildOptions (flagValue cl.c (-1)) (flagValue cl.i Second))
      = Except.ok pinger) :
    optionsPassed (main lib cl)
      = [PingerOption.RecvFuncOption onRecv, PingerOption.FinishFuncOption onFinish,
         PingerOption.CountOption (flagValue cl.c (-1)),
         PingerOption.IntervalOption (flagValue cl.i Second)] ∧
    (optionsPassed (main lib cl)).map PingerOption.key
      = [ConfigKey.onRecv, ConfigKey.onFinish, ConfigKey.count, ConfigKey.interval] ∧
    (betweenConstructionAndRun (main lib cl)).filterMap Call.mutates
      = [ConfigKey.privileged] ∧
    privilegedSet (betweenConstructionAndRun (main lib cl))
      = [flagValue cl.privileged false] ∧
    (runContexts (main lib cl)).map Context.timeouts
      = [[flagValue cl.t (Second * 100000)]] := by
  rw [main_of_ok lib cl host rest pinger hargs hok]
  refine ⟨?_, ?_, ?_, ?_, ?_⟩
  · simp [optionsPassed, buildOptions]
  · simp [optionsPassed, buildOptions, PingerOption.key]
  · simp [betweenConstructionAndRun, Call.kind, Call.mutates, List.dropWhile, List.takeWhile]
  · simp [betweenConstructionAndRun, Call.kind, privilegedSet, List.dropWhile, List.takeWhile]
  · simp [runContexts, Context.timeouts]

/-- C2 as amended, at `ping -c 5 -i 500ms -t 10s --privileged example.org extra`. -/
theorem main_config_supply_witness :
    allFlags.args = ["example.org", "extra"] ∧
    okLib.NewPinger "example.org" (buildOptions 5 500000000)
      = Except.ok ("example.org", false) ∧
    (optionsPassed (main okLib allFlags)).map PingerOption.key
      = [ConfigKey.onRecv, ConfigKey.onFinish, ConfigKey.count, ConfigKey.interval] ∧
    privilegedSet (betweenConstructionAndRun (main okLib allFlags)) = [true] ∧
    (runContexts (main okLib allFlags)).map Context.timeouts = [[10000000000]] :=
  have h := main_config_supply okLib allFlags "example.org" ["extra"] ("example.org", false)
    rfl rfl
  ⟨rfl, rfl, h.2.1, h.2.2.2.1, h.2.2.2.2⟩

/-- C3: for every sequence of signals taken from the channel, the interrupt
goroutine calls `Stop` once per signal, so exactly as many times as there are
signals; it calls nothing else: it never exits the process, never calls `Run`
or `SetPrivileged`, never prints. -/
theorem interruptHandler_stops_once_per_signal (sigs : List Signal) :
    interruptHandler sigs = List.replicate sigs.length Effect.stop ∧
    (interruptHandler sigs).count Effect.stop = sigs.length ∧
    (interruptHandler sigs).length = sigs.length ∧
    (∀ code : Int, Effect.exit code ∉ interruptHandler sigs) ∧
    (∀ ctx : Context, Effect.run ctx ∉ interruptHandler sigs) ∧
    (∀ p : Bool, Effect.setPrivileged p ∉ interruptHandler sigs) ∧
    (∀ (format : String) (args : List Arg), Effect.printf format args ∉ interruptHandler sigs) := by
  rw [interruptHandler_eq]
  refine ⟨rfl, ?_, ?_, ?_, ?_, ?_, ?_⟩
  · simp
  · simp
  · intro code h
    exact absurd (List.eq_of_mem_replicate h) (by simp)
  · intro ctx h
    exact absurd (List.eq_of_mem_replicate h) (by simp)
  · intro p h
    exact absurd (List.eq_of_mem_replicate h) (by simp)
  · intro format args h
    exact absurd (List.eq_of_mem_replicate h) (by simp)

/-- C4: when a host is given and construction succeeds, `Run` is called once,
with the context made from the background context with timeout exactly the `-t`
value, or 100000 seconds (100000000000000 ns) when `-t` is absent; that context
is the one `context.WithTimeout` was asked for; and `cancel` is not called
before `Run`: after `Run` the only call is the deferred `cancel`. -/
theorem main_run_deadline (lib : PingLib) (cl : CmdLine)
    (host : String) (rest : List String) (pinger : lib.Pinger)
    (hargs : cl.args = host :: rest)
    (hok : lib.NewPinger host (buildOptions (flagValue cl.c (-1)) (flagValue cl.i Second))
      = Except.ok pinger) :
    runContexts (main lib cl)
      = [Context.WithTimeout Context.Background
          (match cl.t with
           | some d => d
           | none => 100000000000000)] ∧
    (kinds (main lib cl)).count Kind.withTimeout = 1 ∧
    Kind.cancel ∉ (kinds (main lib cl)).takeWhile (fun k => decide (k ≠ Kind.run)) ∧
    (kinds (main lib cl)).dropWhile (fun k => decide (k ≠ Kind.run))
      = [Kind.run, Kind.cancel] := by
  rw [main_of_ok lib cl host rest pinger hargs hok]
  refine ⟨?_, ?_, ?_, ?_⟩
  · cases ht : cl.t <;> simp [runContexts, flagValue, Second]
  · simp [kinds, Call.kind]
  · simp [kinds, Call.kind, List.takeWhile]
  · simp [kinds, Call.kind, List.dropWhile]

/-- C4, at `ping www.google.com` (no `-t`) with a library whose construction
succeeds. -/
theorem main_run_deadline_witness :
    hostOnly.args = ["www.google.com"] ∧
    okLib.NewPinger "www.google.com" (buildOptions (-1) Second)
      = Except.ok ("www.google.com", false) ∧
    runContexts (main okLib hostOnly)
      = [Context.WithTimeout Context.Background 100000000000000] :=
  ⟨rfl, rfl,
    (main_run_deadline okLib hostOnly "www.google.com" [] ("www.google.com", false) rfl rfl).1⟩

/-- C5: when a host is given, `NewPinger` receives exactly the first positional
argument as host, one `CountOption` holding the `-c` value (-1 when absent) and
one `IntervalOption` holding the `-i` value (one second when absent);
`SetPrivileged`, called when construction succeeds, receives the `--privileged`
value (false when absent); and positional arguments after the first change
nothing. -/
theorem main_flag_values_unchanged (lib : PingLib) (cl : CmdLine)
    (host : String) (rest : List String)
    (hargs : cl.args = host :: rest) :
    hostsPassed (main lib cl) = [host] ∧
    countOptions (optionsPassed (main lib cl))
      = [match cl.c with
         | some c => c
         | none => -1] ∧
    intervalOptions (optionsPassed (main lib cl))
      = [match cl.i with
         | some i => i
         | none => 1000000000] ∧
    privilegedSet (main lib cl)
      = (match lib.NewPinger host (buildOptions (flagValue cl.c (-1)) (flagValue cl.i Second)) with
         | Except.ok _ =>
           [match cl.privileged with
            | some p => p
            | none => false]
         | Except.error _ => []) ∧
    main lib cl = main lib { cl with args := [host] } := by
  refine ⟨?_, ?_, ?_, ?_, ?_⟩
  · cases h : lib.NewPinger host (buildOptions (flagValue cl.c (-1)) (flagValue cl.i Second)) with
    | error err => rw [main_of_error lib cl host rest err hargs h]; simp [hostsPassed]
    | ok pinger => rw [main_of_ok lib cl host rest pinger hargs h]; simp [hostsPassed]
  · cases h : lib.NewPinger host (buildOptions (flagValue cl.c (-1)) (flagValue cl.i Second)) with
    | error err =>
      rw [main_of_error lib cl host rest err hargs h]
      cases cl.c <;> simp [optionsPassed, buildOptions, countOptions, flagValue]
    | ok pinger =>
      rw [main_of_ok lib cl host rest pinger hargs h]
      cases cl.c <;> simp [optionsPassed, buildOptions, countOptions, flagValue]
  · cases h : lib.NewPinger host (buildOptions (flagValue cl.c (-1)) (flagValue cl.i Second)) with
    | error err =>
      rw [main_of_error lib cl host rest err hargs h]
      cases cl.i <;> simp [optionsPassed, buildOptions, intervalOptions, flagValue, Second]
    | ok pinger =>
      rw [main_of_ok lib cl host rest pinger hargs h]
      cases cl.i <;> simp [optionsPassed, buildOptions, intervalOptions, flagValue, Second]
  · cases h : lib.NewPinger host (buildOptions (flagValue cl.c (-1)) (flagValue cl.i Second)) with
    | error err =>
      rw [main_of_error lib cl host rest err hargs h]
      simp [privilegedSet]
    | ok pinger =>
      rw [main_of_ok lib cl host rest pinger hargs h]
      cases cl.privileged <;> simp [privilegedSet, flagValue]
  · simp [main, hargs]

/-- C5, at `ping -c 5 -i 500ms -t 10s --privileged example.org extra`. -/
theorem main_flag_values_unchanged_witness :
    allFlags.args = ["example.org", "extra"] ∧
    hostsPassed (main okLib allFlags) = ["example.org"] ∧
    countOptions (optionsPassed (main okLib allFlags)) = [5] ∧
    intervalOptions (optionsPassed (main okLib allFlags)) = [500000000] ∧
    privilegedSet (main okLib allFlags) = [true] :=
  have h := main_flag_values_unchanged okLib allFlags "example.org" ["extra"] rfl
  ⟨rfl, h.1, h.2.1, h.2.2.1, h.2.2.2.1⟩

/-- C6: the code at `ping www.google.com`, the invocation the usage text
describes as pinging continuously.  No probe-count limit is asked for (the
count option is -1), but the one context given to `Run` is the background
context with a timeout of 100000 seconds (100000000000000 ns, printed by Go as
`27h46m40s`), so it carries a deadline: it is not true that the run is given no
time limit. -/
theorem hostOnly_run_has_deadline :
    countOptions (optionsPassed (main okLib hostOnly)) = [-1] ∧
    runContexts (main okLib hostOnly)
      = [Context.WithTimeout Context.Background 100000000000000] ∧
    (runContexts (main okLib hostOnly)).map Context.timeouts = [[100000 * Second]] ∧
    (runContexts (main okLib hostOnly)).all Context.hasDeadline = true ∧
    ¬ (runContexts (main okLib hostOnly)).all (fun ctx => !ctx.hasDeadline) = true ∧
    durationString 100000000000000 = "27h46m40s" := by
  refine ⟨?_, ?_, ?_, ?_, ?_, ?_⟩ <;> decide

/-- C7: without a positional argument, whatever the flags, `main` makes one
call, `Printf` of the usage text with no operand; the usage text holds no `%`,
and what is printed is the usage text character for character; no pinger is
constructed, no signal handler registered and `Run` is not called. -/
theorem main_without_host (F : Formatter) (lib : PingLib) (cl : CmdLine)
    (hargs : cl.args = []) :
    main lib cl = [Call.printf usage []] ∧
    '%' ∉ usage.data ∧
    stdout F (main lib cl) = some usage ∧
    kinds (main lib cl) = [Kind.printf] ∧
    Kind.newPinger ∉ kinds (main lib cl) ∧
    Kind.signalNotify ∉ kinds (main lib cl) ∧
    Kind.goHandler ∉ kinds (main lib cl) ∧
    Kind.run ∉ kinds (main lib cl) := by
  rw [main_of_no_args lib cl hargs]
  refine ⟨rfl, usage_no_percent, ?_, ?_, ?_, ?_, ?_, ?_⟩
  · have h : sprintf F usage [] = some usage := by
      unfold sprintf
      rw [sprintfChars_plain F usage.data usage_no_percent]
      rfl
    show concatOutputs [sprintf F usage []] = some usage
    rw [h, concatOutputs_single]
  all_goals simp [kinds, Call.kind]

/-- C7, at `ping -c 5`. -/
theorem main_without_host_witness :
    noHost.args = [] ∧ stdout goFormatter (main okLib noHost) = some usage :=
  ⟨rfl, (main_without_host goFormatter okLib noHost rfl).2.2.1⟩

/-- C8: for every statistics value the finish callback makes three `Printf`
calls and nothing else; together they print an empty line, then
`--- <Addr> ping statistics ---`, then `<PacketsSent> packets transmitted,
<PacketsRecv> packets received, <PacketLoss>% packet loss`, then `round-trip
min/avg/max/stddev = <MinRtt>/<AvgRtt>/<MaxRtt>/<StdDevRtt>`, each ended by a
newline; the calls do not depend on any other field. -/
theorem onFinish_prints_summary (F : Formatter) (stats : Statistics) :
    handlerStdout F (onFinish stats)
      = some ("\n--- " ++ stats.Addr ++ " ping statistics ---\n"
          ++ toString stats.PacketsSent ++ " packets transmitted, "
          ++ toString stats.PacketsRecv ++ " packets received, "
          ++ F.float64V stats.PacketLoss ++ "% packet loss\n"
          ++ "round-trip min/avg/max/stddev = "
          ++ F.durationString stats.MinRtt ++ "/" ++ F.durationString stats.AvgRtt ++ "/"
          ++ F.durationString stats.MaxRtt ++ "/" ++ F.durationString stats.StdDevRtt
          ++ "\n") ∧
    (onFinish stats).length = 3 ∧
    (onFinish stats).all Effect.isPrintf = true ∧
    (∀ other : List Int, onFinish { stats with other := other } = onFinish stats) := by
  refine ⟨?_, rfl, rfl, fun _ => rfl⟩
  simp [handlerStdout, onFinish, Effect.output, concatOutputs, sprintf, sprintfChars,
    formatVerb]
  apply String.ext
  simp [String.data_append]

/-- C9: for every packet the receive callback makes one `Printf` call and
nothing else; it prints `<Nbytes> bytes from <IPAddr>: icmp_seq=<Seq>
time=<Rtt>` and a newline; the call is determined by the size, the source
address, the sequence number and the round-trip time alone. -/
theorem onRecv_prints_line (F : Formatter) (pkt : Packet) :
    handlerStdout F (onRecv pkt)
      = some (toString pkt.Nbytes ++ " bytes from " ++ F.ipAddrString pkt.IPAddr
          ++ ": icmp_seq=" ++ toString pkt.Seq ++ " time=" ++ F.durationString pkt.Rtt
          ++ "\n") ∧
    (onRecv pkt).length = 1 ∧
    (onRecv pkt).all Effect.isPrintf = true ∧
    (∀ other : List Int,
      onRecv pkt = onRecv ⟨pkt.Nbytes, pkt.IPAddr, pkt.Seq, pkt.Rtt, other⟩) := by
  refine ⟨?_, rfl, rfl, fun _ => rfl⟩
  simp [handlerStdout, onRecv, Effect.output, concatOutputs, sprintf, sprintfChars,
    formatVerb]
  apply String.ext
  simp [String.data_append]

/-- C10: when a host is given and construction succeeds, the calls of `main`
are, in this order and each once: `NewPinger`; the channel of capacity 1;
`signal.Notify` for the interrupt signal; the start of the goroutine whose body
is the interrupt handler, which calls `Stop` once per signal received;
`WithTimeout` on the background context with the `-t` value; the deferred
`cancel`; `SetPrivileged` with the `--privileged` value (false when absent);
`Addr`; `IPAddr`; the `Printf` of the header; `Run` with the deadline context;
and the `cancel` at return.  The header printed is `PING <Addr()> (<IPAddr()>):`
and a newline.  `Run` is called exactly once, after all of the others but the
final `cancel`. -/
theorem main_success_order (F : Formatter) (lib : PingLib) (cl : CmdLine)
    (host : String) (rest : List String) (pinger : lib.Pinger)
    (hargs : cl.args = host :: rest)
    (hok : lib.NewPinger host (buildOptions (flagValue cl.c (-1)) (flagValue cl.i Second))
      = Except.ok pinger) :
    main lib cl
      = [Call.newPinger host
           [PingerOption.RecvFuncOption onRecv, PingerOption.FinishFuncOption onFinish,
            PingerOption.CountOption
              (match cl.c with
               | some c => c
               | none => -1),
            PingerOption.IntervalOption
              (match cl.i with
               | some i => i
               | none => 1000000000)],
         Call.makeChan 1,
         Call.signalNotify [Signal.Interrupt],
         Call.goHandler interruptHandler,
         Call.withTimeout Context.Background
           (match cl.t with
            | some d => d
            | none => 100000000000000),
         Call.deferCancel,
         Call.setPrivileged
           (match cl.privileged with
            | some p => p
            | none => false),
         Call.addr,
         Call.ipAddr,
         Call.printf "PING %s (%s):\n"
           [Arg.str (lib.Addr (lib.SetPrivileged pinger
              (match cl.privileged with
               | some p => p
               | none => false))),
            Arg.ipaddr (lib.IPAddr (lib.SetPrivileged pinger
              (match cl.privileged with
               | some p => p
               | none => false)))],
         Call.run (Context.WithTimeout Context.Background
           (match cl.t with
            | some d => d
            | none => 100000000000000)),
         Call.cancel] ∧
    kinds (main lib cl)
      = [Kind.newPinger, Kind.makeChan, Kind.signalNotify, Kind.goHandler,
         Kind.withTimeout, Kind.deferCancel, Kind.setPrivileged, Kind.addr, Kind.ipAddr,
         Kind.printf, Kind.run, Kind.cancel] ∧
    channelCapacities (main lib cl) = [1] ∧
    notifiedSignals (main lib cl) = [[Signal.Interrupt]] ∧
    (∀ sigs : List Signal,
      (handlersStarted (main lib cl)).map (fun body => body sigs)
        = [List.replicate sigs.length Effect.stop]) ∧
    privilegedSet (main lib cl)
      = [match cl.privileged with
         | some p => p
         | none => false] ∧
    stdout F (main lib cl)
      = some ("PING "
          ++ lib.Addr (lib.SetPrivileged pinger
              (match cl.privileged with
               | some p => p
               | none => false))
          ++ " ("
          ++ F.ipAddrString (lib.IPAddr (lib.SetPrivileged pinger
              (match cl.privileged with
               | some p => p
               | none => false)))
          ++ "):\n") ∧
    (kinds (main lib cl)).count Kind.run = 1 ∧
    (kinds (main lib cl)).takeWhile (fun k => decide (k ≠ Kind.run))
      = [Kind.newPinger, Kind.makeChan, Kind.signalNotify, Kind.goHandler,
         Kind.withTimeout, Kind.deferCancel, Kind.setPrivileged, Kind.addr, Kind.ipAddr,
         Kind.printf] ∧
    (kinds (main lib cl)).dropWhile (fun k => decide (k ≠ Kind.run))
      = [Kind.run, Kind.cancel] := by
  have hc : flagValue cl.c (-1) = (match cl.c with
      | some c => c
      | none => -1) := by cases cl.c <;> rfl
  have hi : flagValue cl.i Second = (match cl.i with
      | some i => i
      | none => 1000000000) := by cases cl.i <;> rfl
  have ht : flagValue cl.t (Second * 100000) = (match cl.t with
      | some d => d
      | none => 100000000000000) := by cases cl.t <;> rfl
  have hp : flagValue cl.privileged false = (match cl.privileged with
      | some p => p
      | none => false) := by cases cl.privileged <;> rfl
  rw [main_of_ok lib cl host rest pinger hargs hok, hc, hi, ht, hp]
  refine ⟨?_, ?_, ?_, ?_, ?_, ?_, ?_, ?_, ?_, ?_⟩
  · simp [buildOptions]
  · simp [kinds, Call.kind]
  · simp [channelCapacities]
  · simp [notifiedSignals]
  · intro sigs
    simp [handlersStarted, interruptHandler_eq]
  · simp [privilegedSet]
  · simp [stdout, Call.output, concatOutputs, sprintf, sprintfChars, formatVerb]
    apply String.ext
    simp [String.data_append]
  · simp [kinds, Call.kind]
  · simp [kinds, Call.kind, List.takeWhile]
  · simp [kinds, Call.kind, List.dropWhile]

/-- C10, at `ping -c 5 -i 500ms -t 10s --privileged example.org extra` with a
library whose construction succeeds and whose pinger resolves to
93.184.216.34. -/
theorem main_success_order_witness :
    allFlags.args = ["example.org", "extra"] ∧
    okLib.NewPinger "example.org" (buildOptions 5 500000000)
      = Except.ok ("example.org", false) ∧
    kinds (main okLib allFlags)
      = [Kind.newPinger, Kind.makeChan, Kind.signalNotify, Kind.goHandler,
         Kind.withTimeout, Kind.deferCancel, Kind.setPrivileged, Kind.addr, Kind.ipAddr,
         Kind.printf, Kind.run, Kind.cancel] ∧
    channelCapacities (main okLib allFlags) = [1] ∧
    notifiedSignals (main okLib allFlags) = [[Signal.Interrupt]] ∧
    (handlersStarted (main okLib allFlags)).map
        (fun body => body [Signal.Interrupt, Signal.Interrupt])
      = [[Effect.stop, Effect.stop]] ∧
    privilegedSet (main okLib allFlags) = [true] ∧
    runContexts (main okLib allFlags)
      = [Context.WithTimeout Context.Background 10000000000] ∧
    stdout goFormatter (main okLib allFlags) = some "PING example.org (93.184.216.34):\n" ∧
    (kinds (main okLib allFlags)).count Kind.run = 1 :=
  have h := main_success_order goFormatter okLib allFlags "example.org" ["extra"]
    ("example.org", false) rfl rfl
  ⟨rfl, rfl, h.2.1, h.2.2.1, h.2.2.2.1, h.2.2.2.2.1 [Signal.Interrupt, Signal.Interrupt],
    h.2.2.2.2.2.1, by rw [h.1]; rfl, h.2.2.2.2.2.2.1, h.2.2.2.2.2.2.2.1⟩

end GoPing
